import Mathlib

/-!
Verification development for the CoCoHue build-time preprocessor
(`preprocessor-cocohue.py`).  The Python program is shallowly embedded:
file contents are lists of lines, a line is a `List Char`, and every
fallible operation (Python `KeyError` / `ValueError`) is an `Except`.
-/

namespace CCH

/-- A Python string, modelled as its list of characters. -/
abbrev Str : Type := List Char

/-- Characters of a Lean string literal. -/
def chars (s : String) : Str := s.data

/-- Python `str.isspace` characters relevant to `str.strip()`:
space, tab, newline, carriage return, vertical tab, form feed. -/
def wsB (c : Char) : Bool :=
  c == ' ' || c == Char.ofNat 9 || c == Char.ofNat 10 || c == Char.ofNat 13 ||
  c == Char.ofNat 11 || c == Char.ofNat 12

/-- Python `str.strip()` (both ends, default whitespace set). -/
def pyStrip (s : Str) : Str := ((s.dropWhile wsB).reverse.dropWhile wsB).reverse

/-- Python `str.startswith`, i.e. list-prefix test, written out so that all
later inductions are structural. -/
def pfxB : Str → Str → Bool
  | [], _ => true
  | _ :: _, [] => false
  | a :: p, b :: s => a == b && pfxB p s

/-- Python `in` on strings: `p` occurs as a contiguous substring of `s`. -/
def occursB : Str → Str → Bool
  | p, [] => pfxB p []
  | p, c :: t => pfxB p (c :: t) || occursB p t

/-- Scanner for Python `str.replace(p, r)`: `k` counts characters still to
be skipped because they belong to an occurrence of `p` that was already
replaced.  Structural recursion on the scanned string so that the kernel
can evaluate it. -/
def raux (p r : Str) (k : Nat) : Str → Str
  | [] => []
  | c :: t =>
    match k with
    | j + 1 => raux p r j t
    | 0 => if pfxB p (c :: t) then r ++ raux p r (p.length - 1) t else c :: raux p r 0 t

/-- Python `str.replace(p, r)`: replace every non-overlapping occurrence of
`p`, scanning left to right and continuing after the replacement text.
(The program only ever calls it with a non-empty pattern; for an empty
pattern this model returns the string unchanged.) -/
def replaceAll (p r s : Str) : Str :=
  match p with
  | [] => s
  | _ :: _ => raux p r 0 s

/-- Scanner for Python `str.split(p)` (non-empty separator): `cur` is the
segment collected so far, `k` counts separator characters still to skip. -/
def saux (p : Str) (k : Nat) (cur : Str) : Str → List Str
  | [] => [cur]
  | c :: t =>
    match k with
    | j + 1 => saux p j cur t
    | 0 =>
      if pfxB p (c :: t) then cur :: saux p (p.length - 1) [] t
      else saux p 0 (cur ++ [c]) t

/-- Python `str.split(p)` for a non-empty separator `p` (the program never
splits on an empty separator, which raises in Python). -/
def pySplit (p s : Str) : List Str :=
  match p with
  | [] => [s]
  | _ :: _ => saux p 0 [] s

/-- Python dict lookup on an association list (keys are unique in all the
dictionaries of the program). -/
def alookup {α : Type} : List (Str × α) → Str → Option α
  | [], _ => none
  | (a, b) :: r, k => if a = k then some b else alookup r k

/-- The single target value `COCOHUE` (line 5 of the source). -/
def kCOCOHUE : Str := chars ("CoCoHue - Hue Bridge Integration")

/-- The list `ALL_TARGETS` (line 12). -/
def ALL_TARGETS : List Str := [kCOCOHUE]

/-- The dict `ALL_TARGET_NAMES` (line 13): command-line name to target value. -/
def ALL_TARGET_NAMES : List (Str × Str) := [(chars ("COCOHUE"), kCOCOHUE)]

/-- The table `CONSTANTS` (lines 48-94): constant name to (target to value). -/
def CONSTANTS : List (Str × List (Str × Str)) := [
  (chars ("__APP_NAME__"), [(kCOCOHUE, chars ("CoCoHue - Hue Bridge Integration"))]),
  (chars ("__APP_DESCRIPTION__"), [(kCOCOHUE, chars ("Community-created Philips Hue integration for Hue Bridge lights and other Hue devices and features"))]),
  (chars ("__DOCUMENTATION_LINK__"), [(kCOCOHUE, chars ("https://community.hubitat.com/t/release-cocohue-hue-bridge-integration-including-scenes/27978"))]),
  (chars ("__NAMESPACE__"), [(kCOCOHUE, chars ("RMoRobert"))]),
  (chars ("__DNI_PREFIX__"), [(kCOCOHUE, chars ("CCH"))]),
  (chars ("__DRIVER_NAME_BRIDGE__"), [(kCOCOHUE, chars ("CoCoHue Bridge"))]),
  (chars ("__DRIVER_NAME_BUTTON__"), [(kCOCOHUE, chars ("CoCoHue Button"))]),
  (chars ("__DRIVER_NAME_CT_BULB__"), [(kCOCOHUE, chars ("CoCoHue CT Bulb"))]),
  (chars ("__DRIVER_NAME_DIMMABLE_BULB__"), [(kCOCOHUE, chars ("CoCoHue Dimmable Bulb"))]),
  (chars ("__DRIVER_NAME_GROUP__"), [(kCOCOHUE, chars ("CoCoHue Group"))]),
  (chars ("__DRIVER_NAME_MOTION__"), [(kCOCOHUE, chars ("CoCoHue Motion Sensor"))]),
  (chars ("__DRIVER_NAME_PLUG__"), [(kCOCOHUE, chars ("CoCoHue Plug"))]),
  (chars ("__DRIVER_NAME_RGBW_BULB__"), [(kCOCOHUE, chars ("CoCoHue RGBW Bulb"))]),
  (chars ("__DRIVER_NAME_RGB_BULB__"), [(kCOCOHUE, chars ("CoCoHue RGB Bulb"))]),
  (chars ("__DRIVER_NAME_SCENE__"), [(kCOCOHUE, chars ("CoCoHue Scene"))])]

/-- The list `CONSTANT_KEYS` (line 96): the keys of `CONSTANTS`, in table order. -/
def CONSTANT_KEYS : List Str := CONSTANTS.map (fun kv => kv.1)

/-- The exceptions the engine can raise: `ValueError` from unpacking a
malformed `#IF` split, `KeyError` on an unknown constant, `KeyError` on a
constant with no value for the active target, `KeyError` on an `#include`
of an unregistered library, and a missing source file. -/
inductive PErr where
  | malformedIf (line : Str)
  | unknownConstant (c : Str)
  | missingTarget (c t : Str)
  | unknownLibrary (n : Str)
  | missingFile (p : Str)
deriving DecidableEq

deriving instance DecidableEq for Except

/-- The result of Python `ast.parse`: a fresh `ast.Module` object wrapping
the parsed source (its structure is irrelevant here because the program
only ever compares it to a string). -/
inductive PyObj where
  | astModule (src : Str)

/-- The call `ast.parse(s)` in the program, modelled as total: the real
call raises `SyntaxError` for sources Python cannot parse (and
`ValueError` on null bytes), an abort path this model does not represent.
Theorems whose truth depends on the parse succeeding therefore restrict
their `#IF` right-hand sides to the `pyLitB` fragment below, on which
`ast.parse` always succeeds; on that common scope the model and the
program agree. -/
def astParse (s : Str) : PyObj := .astModule s

/-- Python `==` between a `str` and an `ast.Module`: neither type defines
a cross-type `__eq__`, so the comparison falls back to identity and is
`False` for every string and every freshly parsed module. -/
def pyEqStrObj (v : Str) (o : PyObj) : Bool :=
  match v, o with
  | _, .astModule _ => false

/-- The lookup `CONSTANTS[c][t]` with both `KeyError`s made explicit. -/
def constLookup (c t : Str) : Except PErr Str :=
  match alookup CONSTANTS c with
  | none => .error (.unknownConstant c)
  | some m =>
    match alookup m t with
    | none => .error (.missingTarget c t)
    | some v => .ok v

def sIF : Str := chars ("#IF ")
def sENDIF : Str := chars ("#ENDIF")
def sInclude : Str := chars ("#include")
def sEqEq : Str := chars ("==")

/-- Function `checkConditionFromLine` (lines 157-160): strip the `#IF ` prefix via
`str.replace`, split on `==` (a `ValueError` unless exactly two parts),
look up the left-hand constant for the target, and compare that string to
`ast.parse` of the right-hand side.  (Right-hand sides that are not
syntactically valid Python are outside this model; `astParse` is total.) -/
def checkConditionFromLine (line t : Str) : Except PErr Bool :=
  let condition := pyStrip (replaceAll sIF [] line)
  match pySplit sEqEq condition with
  | [lhs, rhs] =>
    (constLookup (pyStrip lhs) t).map (fun v => pyEqStrObj v (astParse (pyStrip rhs)))
  | _ => .error (.malformedIf line)

/-- The `for const in CONSTANT_KEYS` loop of `processConstants`
(lines 167-169), with the per-iteration `CONSTANTS[const][target]` lookup. -/
def cfold (t : Str) : Str → List Str → Except PErr Str
  | nl, [] => .ok nl
  | nl, c :: cs =>
    match constLookup c t with
    | .error e => .error e
    | .ok v => cfold t (replaceAll c v nl) cs

/-- Function `processConstants` (lines 164-172): if any constant key occurs in the
line, replace each key in table order; otherwise return the line. -/
def processConstants (srcLine t : Str) : Except PErr Str :=
  if CONSTANT_KEYS.any (fun c => occursB c srcLine) then cfold t srcLine CONSTANT_KEYS
  else .ok srcLine

/-- The mutable locals of one `processFile` call: the `inIf` and
`skipLines` flags, the `libNamesToInclude` list, and everything written to
the destination file so far. -/
structure PState where
  inIf : Bool
  skip : Bool
  libNames : List Str
  out : Str
deriving DecidableEq

/-- Locals at the top of `processFile` (lines 113, 117-118). -/
def initState : PState := { inIf := false, skip := false, libNames := [], out := [] }

/-- The expression `line.split("#include")[-1].strip()` (line 122). -/
def includeName (line : Str) : Str := pyStrip ((pySplit sInclude line).getLastD [])

/-- One iteration of the `for line in ogFile` loop (lines 119-132):
record `#include` names (only when not skipping), evaluate `#IF `,
close on `#ENDIF`, and otherwise write the substituted line unless inside
a skipped conditional. -/
def stepSrcLine (t : Str) (st : PState) (line : Str) : Except PErr PState :=
  let s := pyStrip line
  if pfxB sInclude s && !st.skip then
    .ok { st with libNames := st.libNames ++ [includeName line] }
  else if pfxB sIF s then
    (checkConditionFromLine line t).map (fun b => { st with inIf := true, skip := !b })
  else if pfxB sENDIF s then
    .ok { st with inIf := false, skip := false }
  else if !(st.inIf && st.skip) then
    (processConstants line t).map (fun nl => { st with out := st.out ++ nl })
  else .ok st

/-- One iteration of the `for line in libFile` loop (lines 145-153): the
same as `stepSrcLine` but with no `#include` branch.  Note that the
`inIf`/`skip` fields are the same Python locals as in phase one — the
code does not reset them per library. -/
def stepLibLine (t : Str) (st : PState) (line : Str) : Except PErr PState :=
  let s := pyStrip line
  if pfxB sIF s then
    (checkConditionFromLine line t).map (fun b => { st with inIf := true, skip := !b })
  else if pfxB sENDIF s then
    .ok { st with inIf := false, skip := false }
  else if !(st.inIf && st.skip) then
    (processConstants line t).map (fun nl => { st with out := st.out ++ nl })
  else .ok st

/-- A Python `for` loop over lines in which any raised exception aborts
the whole call: `List.foldlM` over `Except`, written out structurally. -/
def efold {α : Type} (f : PState → α → Except PErr PState) : PState → List α → Except PErr PState
  | st, [] => .ok st
  | st, x :: xs =>
    match f st x with
    | .error e => .error e
    | .ok st2 => efold f st2 xs

/-- The marker comment `toPrepend` written before each library (line 137). -/
def marker (n : Str) : Str := chars ("\n\n// ~~~ IMPORTED FROM ") ++ n ++ chars (" ~~~\n")

/-- One iteration of the `for libName in libNamesToInclude` loop
(lines 134-154).  The parameter `libs` merges the `libraries` dict with
the contents of the library files on disk: it maps a library name
directly to that library file's list of lines (every registered library
file exists in the repository).  An unregistered name is the `KeyError`
of line 135.  When `pp` is false the raw file content (the concatenation
of its lines) is copied through untouched. -/
def appendLib (libs : List (Str × List Str)) (t : Str) (pp : Bool) (st : PState) (n : Str) :
    Except PErr PState :=
  match alookup libs n with
  | none => .error (.unknownLibrary n)
  | some content =>
    let st1 := { st with out := st.out ++ marker n }
    if pp then efold (stepLibLine t) st1 content
    else .ok { st1 with out := st1.out ++ content.foldl (fun a l => a ++ l) [] }

/-- Phase one of `processFile`: the scan of the source file's own lines. -/
def phase1 (src : List Str) (t : Str) : Except PErr PState := efold (stepSrcLine t) initState src

/-- Function `processFile` (lines 108-155) as a pure function from the source
file's lines, the resolved library registry and the target to the full
content written to the destination file. -/
def processFileE (src : List Str) (libs : List (Str × List Str)) (t : Str) (pp : Bool) :
    Except PErr Str :=
  match phase1 src t with
  | .error e => .error e
  | .ok st =>
    match efold (appendLib libs t pp) st st.libNames with
    | .error e => .error e
    | .ok st2 => .ok st2.out

/-- Modelled from the spec: "State machine per file (and, recursively, per
library during expansion): states {NORMAL, IN_CONDITIONAL_SKIP,
IN_CONDITIONAL_KEEP}. Initial state NORMAL."  A variant of `appendLib`
that resets the conditional state to NORMAL before each library
fragment, as the spec describes (the code does not do this: it keeps the
`inIf`/`skipLines` locals across phase two). -/
def appendLibReset (libs : List (Str × List Str)) (t : Str) (pp : Bool) (st : PState) (n : Str) :
    Except PErr PState :=
  match alookup libs n with
  | none => .error (.unknownLibrary n)
  | some content =>
    let st1 := { st with inIf := false, skip := false, out := st.out ++ marker n }
    if pp then efold (stepLibLine t) st1 content
    else .ok { st1 with out := st1.out ++ content.foldl (fun a l => a ++ l) [] }

/-- Modelled from the spec: `processFile` as it would behave if every
library fragment began processing in state NORMAL. -/
def processFileSpecReset (src : List Str) (libs : List (Str × List Str)) (t : Str) (pp : Bool) :
    Except PErr Str :=
  match phase1 src t with
  | .error e => .error e
  | .ok st =>
    match efold (appendLibReset libs t pp) st st.libNames with
    | .error e => .error e
    | .ok st2 => .ok st2.out

/-- One library fragment processed from the initial (NORMAL) state, for
stating how the true phase two relates to per-library processing. -/
def libResolveFresh (libs : List (Str × List Str)) (t : Str) (n : Str) : Except PErr PState :=
  match alookup libs n with
  | none => .error (.unknownLibrary n)
  | some content => efold (stepLibLine t) initState content

/-- The output text of one freshly processed library fragment. -/
def libOut (libs : List (Str × List Str)) (t : Str) (n : Str) : Str :=
  match libResolveFresh libs t n with
  | .ok stn => stn.out
  | .error _ => []

/-- The lookup-failure errors of the spec's conditions (a), (b), (c):
unknown `#IF` constant, constant with no value for the target, and
unregistered `#include` library. -/
def isLookupErr : PErr → Bool
  | .unknownConstant _ => true
  | .missingTarget _ _ => true
  | .unknownLibrary _ => true
  | .malformedIf _ => false
  | .missingFile _ => false

/-- A line is well formed as an `#IF` directive: if it is one, its
condition splits on `==` into exactly two parts (otherwise Python's tuple
unpacking raises a `ValueError`, which is not a lookup failure). -/
def wfIfLine (line : Str) : Bool :=
  !pfxB sIF (pyStrip line) ||
    (pySplit sEqEq (pyStrip (replaceAll sIF [] line))).length == 2

def wfLines (ls : List Str) : Bool := ls.all wfIfLine

def wfLibs (libs : List (Str × List Str)) : Bool := libs.all (fun nc => wfLines nc.2)

/-- Body of a quote-delimited Python string literal: printable ASCII with
no closing quote, no backslash, terminated by the quote `q`.  Sources of
this shape never make `ast.parse` raise. -/
def litBody (q : Char) : Str → Bool
  | [] => false
  | [c] => c == q
  | c :: rest =>
    (!(c == q)) && (!(c == Char.ofNat 92)) && decide (32 ≤ c.toNat) &&
      decide (c.toNat ≤ 126) && litBody q rest

/-- A (stripped) right-hand side on which `ast.parse` provably succeeds:
an escape-free single- or double-quoted string literal of printable
ASCII, or a decimal integer literal without forbidden leading zeros. -/
def pyLitB (s : Str) : Bool :=
  match s with
  | [] => false
  | c :: rest =>
    if c == Char.ofNat 34 then litBody (Char.ofNat 34) rest
    else if c == Char.ofNat 39 then litBody (Char.ofNat 39) rest
    else (c :: rest).all Char.isDigit && (!(c == Char.ofNat 48) || decide (rest = []))

/-- A line is a fully well-formed `#IF` directive if it is one: its
condition splits on `==` into exactly two parts (otherwise Python's
tuple unpacking raises a `ValueError`) and its right-hand side lies in
the `pyLitB` fragment (otherwise `ast.parse` may raise a `SyntaxError`);
neither abort is a lookup failure, and neither is represented by the
total `astParse` model, so C7 scopes its inputs to this fragment. -/
def wfIfLineLit (line : Str) : Bool :=
  !pfxB sIF (pyStrip line) ||
    (match pySplit sEqEq (pyStrip (replaceAll sIF [] line)) with
     | [_, rhs] => pyLitB (pyStrip rhs)
     | _ => false)

def wfLinesLit (ls : List Str) : Bool := ls.all wfIfLineLit

def wfLibsLit (libs : List (Str × List Str)) : Bool := libs.all (fun nc => wfLinesLit nc.2)

/-- A piece of a source line: either plain text or the `i`-th constant's
placeholder token. -/
inductive Piece where
  | raw (s : Str)
  | tok (i : Nat)

/-- The (key, value) substitution pairs for target COCOHUE, in
`CONSTANT_KEYS` order. -/
def pairsList : List (Str × Str) :=
  CONSTANTS.map (fun kv => (kv.1, (alookup kv.2 kCOCOHUE).getD []))

def keyAt (i : Nat) : Str := (pairsList.getD i ([], [])).1

def valAt (i : Nat) : Str := (pairsList.getD i ([], [])).2

/-- Rendering of one piece at stage `j`: tokens whose index is below `j`
have already been replaced by their values. -/
def pieceR (j : Nat) : Piece → Str
  | .raw s => s
  | .tok i => if i < j then valAt i else keyAt i

/-- Rendering of a piece list at stage `j`. -/
def renderAt (j : Nat) : List Piece → Str
  | [] => []
  | q :: rest => pieceR j q ++ renderAt j rest

/-- Non-interference of stage `j` for pattern `k`: scanning the stage-`j`
rendering piece by piece, no occurrence of `k` starts inside a raw piece,
a value piece, or a different key piece (including occurrences that spill
over into the following text, bounded by a window of `k.length - 1`
characters). -/
def stepOKb (k : Str) (j : Nat) : List Piece → Bool
  | [] => true
  | .raw s :: rest =>
      !occursB k (s ++ (renderAt j rest).take (k.length - 1)) && stepOKb k j rest
  | .tok i :: rest =>
      (if i = j then true
       else !occursB k (pieceR j (.tok i) ++ (renderAt j rest).take (k.length - 1))) &&
      stepOKb k j rest

/-- Every token index of the piece list is in range. -/
def psBound (ps : List Piece) : Bool :=
  ps.all (fun q => match q with | .raw _ => true | .tok i => decide (i < pairsList.length))

/-- A decomposition is sound when its token indices are in range and
every substitution stage is non-interfering. -/
def soundB (ps : List Piece) : Bool :=
  psBound ps && (List.range pairsList.length).all (fun j => stepOKb (keyAt j) j ps)

/-- Sequential naive substitution with an explicit pair list, the pure
core of `processConstants`. -/
def pureSubst (pairs : List (Str × Str)) (s : Str) : Str :=
  pairs.foldl (fun acc kv => replaceAll kv.1 kv.2 acc) s

/-- Lines 110-111: `if os.path.isfile(destFile): os.remove(destFile)` —
whatever the destination held before, it is absent afterwards. -/
def destAfterRemove (pre : Option Str) : Option Str :=
  match pre with
  | some _ => none
  | none => none

/-- Line 112: `open(destFile, "a+")` — append mode starts from whatever
the file holds when opened (empty when absent). -/
def appendMode (existing : Option Str) (written : Str) : Str := (existing.getD []) ++ written

/-- The destination file's content after one `processFile` run, as a
function of its pre-existing content `pre`. -/
def runOnDest (pre : Option Str) (src : List Str) (libs : List (Str × List Str)) (t : Str) :
    Except PErr Str :=
  match processFileE src libs t true with
  | .error e => .error e
  | .ok w => .ok (appendMode (destAfterRemove pre) w)

/-- The list `driverFiles` (lines 17-28). -/
def driverFiles : List Str := [
  chars ("cocohue-bridge-driver.groovy"),
  chars ("cocohue-button-driver.groovy"),
  chars ("cocohue-ct-bulb-driver.groovy"),
  chars ("cocohue-dimmable-bulb-driver.groovy"),
  chars ("cocohue-group-driver.groovy"),
  chars ("cocohue-motion-sensor-driver.groovy"),
  chars ("cocohue-plug-driver.groovy"),
  chars ("cocohue-rgb-bulb-driver.groovy"),
  chars ("cocohue-rgbw-bulb-driver.groovy"),
  chars ("cocohue-scene-driver.groovy")]

/-- The list `appFiles` (lines 30-32). -/
def appFiles : List Str := [chars ("cocohue-app.groovy")]

/-- The paths `os.path.join(APP_DIR, f)`, `os.path.join(DRIVER_DIR, f)` and the
output path `os.path.join("full", "cocohue", f)`. -/
def appPath (n : Str) : Str := chars ("apps/") ++ n

def driverPath (n : Str) : Str := chars ("drivers/") ++ n

def destPath (n : Str) : Str := chars ("full/cocohue/") ++ n

/-- The (source, destination) pairs processed by `processApps` then
`processDrivers` (lines 178-194), in manifest order. -/
def batchUnits : List (Str × Str) :=
  appFiles.map (fun n => (appPath n, destPath n)) ++
  driverFiles.map (fun n => (driverPath n, destPath n))

/-- The run of the manifest: each unit's source is read from `fs` (missing
file: `FileNotFoundError` from `open`), processed, and written; the first
exception aborts the remaining queue.  Returns the files written (in
order), the final `totalProcessed` counter, and the aborting error if
any. -/
def goBatch (fs : Str → Option (List Str)) (libs : List (Str × List Str)) (t : Str) :
    List (Str × Str) → List (Str × Str) × Nat × Option PErr
  | [] => ([], 0, none)
  | (sp, dp) :: rest =>
    match (match fs sp with
           | none => Except.error (PErr.missingFile sp)
           | some lines => processFileE lines libs t true) with
    | .error e => ([], 0, some e)
    | .ok w =>
      let r := goBatch fs libs t rest
      ((dp, w) :: r.1, r.2.1 + 1, r.2.2)

/-- The observable outcome of one invocation of the script. -/
structure MainResult where
  writes : List (Str × Str)
  totalProcessed : Nat
  errored : Option PErr
  message : Option Str

/-- The `__main__` block (lines 208-217): `argv` includes the script name
at index 0.  With no argument or an unrecognized (stripped) argument the
script only prints a message (whose text includes
`list(ALL_TARGET_NAMES.keys())`, i.e. `['COCOHUE']`) and exits normally;
otherwise it runs `main(target)` over the manifest. -/
def pyMain (argv : List Str) (fs : Str → Option (List Str)) (libs : List (Str × List Str)) :
    MainResult :=
  if argv.length > 1 then
    let tgt := argv.getD 1 []
    match alookup ALL_TARGET_NAMES (pyStrip tgt) with
    | some tv =>
      let r := goBatch fs libs tv batchUnits
      { writes := r.1, totalProcessed := r.2.1, errored := r.2.2, message := none }
    | none =>
      { writes := [], totalProcessed := 0, errored := none,
        message := some (chars ("Invalaid target specified: ") ++ tgt ++
          chars (". Should be one of: ['COCOHUE']")) }
  else
    { writes := [], totalProcessed := 0, errored := none,
      message := some (chars ("No target specified. Run script with parameter, e.g., COCOHUE. Possible parameters: ['COCOHUE']")) }

/-! ## Basic lemmas about the string primitives -/

theorem occursB_append_right (p x y : Str) (h : occursB p y = true) :
    occursB p (x ++ y) = true := by
  induction x with
  | nil => simpa using h
  | cons c t ih => simp [occursB, ih]

theorem pfxB_of_include (s : Str) (h : pfxB sInclude s = true) :
    pfxB sIF s = false ∧ pfxB sENDIF s = false := by
  match s with
  | [] => simp [sInclude, chars, pfxB] at h
  | [c] => simp [sInclude, chars, pfxB] at h
  | c :: d :: t =>
    simp only [sInclude, chars, pfxB, Bool.and_eq_true, beq_iff_eq] at h
    obtain ⟨hc, hd, -⟩ := h
    subst hc; subst hd
    constructor <;> simp [sIF, sENDIF, chars, pfxB]

theorem pfxB_of_if (s : Str) (h : pfxB sIF s = true) :
    pfxB sInclude s = false ∧ pfxB sENDIF s = false := by
  match s with
  | [] => simp [sIF, chars, pfxB] at h
  | [c] => simp [sIF, chars, pfxB] at h
  | c :: d :: t =>
    simp only [sIF, chars, pfxB, Bool.and_eq_true, beq_iff_eq] at h
    obtain ⟨hc, hd, -⟩ := h
    subst hc; subst hd
    constructor <;> simp [sInclude, sENDIF, chars, pfxB]

theorem efold_append {α : Type} (f : PState → α → Except PErr PState) (st : PState)
    (xs ys : List α) :
    efold f st (xs ++ ys) =
      match efold f st xs with
      | .error e => .error e
      | .ok st2 => efold f st2 ys := by
  induction xs generalizing st with
  | nil => simp [efold]
  | cons x xs ih =>
    simp only [List.cons_append, efold]
    cases f st x with
    | error e => rfl
    | ok st2 => exact ih st2

/-! ## C1: the concrete conditional-block scenario from the spec -/

/-- C1: the spec's concrete scenario fails on the code.  For target
COCOHUE the constant `__DNI_PREFIX__` resolves to `"CCH"`, yet the file
`#IF __DNI_PREFIX__ == "CCH"` / `log "prefix ok"` / `#ENDIF` produces an
EMPTY output: the `log "prefix ok"` line is dropped even though the
resolved value matches the comparison literal, because
`checkConditionFromLine` compares the string to the `ast.Module` object
returned by `ast.parse` and that comparison is always `False`. -/
theorem C1_conditional_block_code_behavior :
    processFileE [chars ("#IF __DNI_PREFIX__ == \"CCH\"\n"), chars ("log \"prefix ok\"\n"),
        chars ("#ENDIF\n")] [] kCOCOHUE true = .ok [] ∧
      constLookup (chars ("__DNI_PREFIX__")) kCOCOHUE = .ok (chars ("CCH")) := by
  exact ⟨rfl, rfl⟩

/-! ## C6: the destination is a pure function of source, target, registries -/

/-- C6: the destination file's content after a run does not depend on any
pre-existing destination content (the file is deleted first, and append
mode then starts from nothing), so reprocessing the same source/target
pair yields byte-identical results. -/
theorem C6_output_pure_function :
    ∀ (pre1 pre2 : Option Str) (src : List Str) (libs : List (Str × List Str)) (t : Str),
      runOnDest pre1 src libs t = runOnDest pre2 src libs t := by
  intro pre1 pre2 src libs t
  unfold runOnDest
  cases processFileE src libs t true <;> cases pre1 <;> cases pre2 <;> rfl

/-! ## C9: invocation guard -/

/-- C9: with no command-line argument, or an argument whose stripped form
is not a key of `ALL_TARGET_NAMES`, the script writes nothing, processes
zero files, raises nothing, and prints a message listing the valid target
names. -/
theorem C9_invocation_guard :
    ∀ (argv : List Str) (fs : Str → Option (List Str)) (libs : List (Str × List Str)),
      (argv.length ≤ 1 ∨ alookup ALL_TARGET_NAMES (pyStrip (argv.getD 1 [])) = none) →
      (pyMain argv fs libs).writes = [] ∧ (pyMain argv fs libs).totalProcessed = 0 ∧
        (pyMain argv fs libs).errored = none ∧
        ∃ m, (pyMain argv fs libs).message = some m ∧ occursB (chars ("COCOHUE")) m = true := by
  intro argv fs libs h
  by_cases hl : argv.length > 1
  · have h2 : alookup ALL_TARGET_NAMES (pyStrip (argv.getD 1 [])) = none := by
      rcases h with h | h
      · omega
      · exact h
    simp only [pyMain, if_pos hl, h2]
    exact ⟨trivial, trivial, trivial, _, rfl, occursB_append_right _ _ _ (by decide)⟩
  · simp only [pyMain, if_neg hl]
    exact ⟨trivial, trivial, trivial, _, rfl, by decide⟩

/-- Closed witness for C9 at a concrete invocation with no argument. -/
theorem C9_invocation_guard_witness :
    (pyMain [chars ("preprocessor-cocohue.py")] (fun _ => none) []).writes = [] ∧
      (pyMain [chars ("preprocessor-cocohue.py")] (fun _ => none) []).totalProcessed = 0 ∧
      (pyMain [chars ("preprocessor-cocohue.py")] (fun _ => none) []).errored = none ∧
      ∃ m, (pyMain [chars ("preprocessor-cocohue.py")] (fun _ => none) []).message = some m ∧
        occursB (chars ("COCOHUE")) m = true :=
  C9_invocation_guard [chars ("preprocessor-cocohue.py")] (fun _ => none) []
    (Or.inl (by decide))

/-! ## C10: `#include` under the conditional-skip flag -/

/-- Behavior of the scan on an `#include`-prefixed line: inert while
skipping (with the `inIf` invariant), recording while not skipping. -/
theorem stepSrc_include (t : Str) (st : PState) (line : Str)
    (h : pfxB sInclude (pyStrip line) = true) :
    (st.skip = true → st.inIf = true → stepSrcLine t st line = .ok st) ∧
    (st.skip = false →
      stepSrcLine t st line = .ok { st with libNames := st.libNames ++ [includeName line] }) := by
  obtain ⟨hif, hend⟩ := pfxB_of_include _ h
  constructor
  · intro hskip hinif
    unfold stepSrcLine
    simp [h, hskip, hinif, hif, hend]
  · intro hskip
    unfold stepSrcLine
    simp [h, hskip]

/-- C10: an `#include` line scanned while the skip flag is set (inside a
false conditional, where the `inIf` flag is also set) is neither recorded
for library expansion nor written to the output — the state is returned
unchanged; with the skip flag clear the name is recorded in exactly the
same way whether or not the scanner is inside a (true) conditional
block. -/
theorem C10_include_under_skip :
    ∀ (t : Str) (st : PState) (line : Str), pfxB sInclude (pyStrip line) = true →
      (st.skip = true → st.inIf = true → stepSrcLine t st line = .ok st) ∧
      (st.skip = false →
        stepSrcLine t st line = .ok { st with libNames := st.libNames ++ [includeName line] }) :=
  fun t st line h => stepSrc_include t st line h

/-- Closed witness for C10: a concrete `#include` line inside a skipped
block leaves the state untouched, and the same line with the skip flag
clear but `inIf` set records the library name exactly as from the
initial state. -/
theorem C10_include_under_skip_witness :
    stepSrcLine kCOCOHUE { inIf := true, skip := true, libNames := [], out := [] }
        (chars ("#include RMoRobert.CoCoHue_Bri_Lib\n")) =
      .ok { inIf := true, skip := true, libNames := [], out := [] } ∧
    stepSrcLine kCOCOHUE { inIf := true, skip := false, libNames := [], out := [] }
        (chars ("#include RMoRobert.CoCoHue_Bri_Lib\n")) =
      .ok { inIf := true, skip := false,
            libNames := [chars ("RMoRobert.CoCoHue_Bri_Lib")], out := [] } :=
  ⟨(C10_include_under_skip kCOCOHUE { inIf := true, skip := true, libNames := [], out := [] }
      (chars ("#include RMoRobert.CoCoHue_Bri_Lib\n")) (by decide)).1 rfl rfl,
   (C10_include_under_skip kCOCOHUE { inIf := true, skip := false, libNames := [], out := [] }
      (chars ("#include RMoRobert.CoCoHue_Bri_Lib\n")) (by decide)).2 rfl⟩

/-! ## C2: the condition evaluation is constantly false -/

/-- Whenever `checkConditionFromLine` returns a value at all, that value
is `False`: the left-hand constant's resolved string is compared with the
`ast.Module` object produced by `ast.parse`, never with a string. -/
theorem checkCond_ok_false (line t : Str) (b : Bool)
    (h : checkConditionFromLine line t = .ok b) : b = false := by
  simp only [checkConditionFromLine] at h
  split at h
  · cases hc : constLookup (pyStrip _) t with
    | error e => rw [hc] at h; simp [Except.map] at h
    | ok v =>
      rw [hc] at h
      simp only [Except.map, Except.ok.injEq] at h
      rw [← h]
      rfl
  · cases h

/-- A line that is neither `#IF `- nor `#ENDIF`-prefixed is inert while
the scanner is inside a skipped conditional block. -/
theorem stepSrc_skip_inert (t : Str) (st : PState) (l : Str) (hinif : st.inIf = true)
    (hskip : st.skip = true) (hif : pfxB sIF (pyStrip l) = false)
    (hend : pfxB sENDIF (pyStrip l) = false) : stepSrcLine t st l = .ok st := by
  unfold stepSrcLine
  simp [hinif, hskip, hif, hend]

/-- A whole list of such lines is inert. -/
theorem efold_skip_inert (t : Str) (mid : List Str) (st : PState) (hinif : st.inIf = true)
    (hskip : st.skip = true)
    (hmid : ∀ l ∈ mid, pfxB sIF (pyStrip l) = false ∧ pfxB sENDIF (pyStrip l) = false) :
    efold (stepSrcLine t) st mid = .ok st := by
  induction mid with
  | nil => rfl
  | cons l ls ih =>
    obtain ⟨h1, h2⟩ := hmid l (by simp)
    simp only [efold, stepSrc_skip_inert t st l hinif hskip h1 h2]
    exact ih (fun x hx => hmid x (by simp [hx]))

/-- C2: for every `#IF` line whose condition evaluation succeeds (its
left-hand side names a known constant with a value for the target),
`checkConditionFromLine` returns `False`; consequently an `#IF` line
followed by any lines that are not themselves `#IF`/`#ENDIF` directives
leaves all of them dropped: the scan ends in the skipping state with the
output and recorded libraries exactly as before the block, regardless of
the comparison literal. -/
theorem C2_condition_always_false :
    (∀ (line t : Str) (b : Bool), checkConditionFromLine line t = .ok b → b = false) ∧
    (∀ (t : Str) (st : PState) (ifLine : Str) (mid : List Str),
      pfxB sIF (pyStrip ifLine) = true →
      (∃ b, checkConditionFromLine ifLine t = .ok b) →
      (∀ l ∈ mid, pfxB sIF (pyStrip l) = false ∧ pfxB sENDIF (pyStrip l) = false) →
      efold (stepSrcLine t) st (ifLine :: mid) =
        .ok { st with inIf := true, skip := true }) := by
  constructor
  · exact checkCond_ok_false
  · intro t st ifLine mid hpfx hex hmid
    obtain ⟨b, hb⟩ := hex
    have hbf : b = false := checkCond_ok_false ifLine t b hb
    subst hbf
    obtain ⟨hinc, hend⟩ := pfxB_of_if _ hpfx
    have hstep : stepSrcLine t st ifLine = .ok { st with inIf := true, skip := true } := by
      unfold stepSrcLine
      simp [hpfx, hinc, hend, hb, Except.map]
    simp only [efold, hstep]
    exact efold_skip_inert t mid _ rfl rfl hmid

/-- Closed witness for C2: a concrete true-by-value comparison still
yields `False`, and the block's interior line is dropped. -/
theorem C2_condition_always_false_witness :
    efold (stepSrcLine kCOCOHUE) initState
        [chars ("#IF __DNI_PREFIX__ == \"CCH\"\n"), chars ("log \"prefix ok\"\n")] =
      .ok { initState with inIf := true, skip := true } :=
  C2_condition_always_false.2 kCOCOHUE initState (chars ("#IF __DNI_PREFIX__ == \"CCH\"\n"))
    [chars ("log \"prefix ok\"\n")] (by decide) ⟨false, by rfl⟩ (by decide)

/-! ## C5: the conditional state is NOT reset per library -/

/-- Counterexample to C5: a source file that ends inside an open `#IF`
block hands its skipping state to the first library fragment, so the
code's output differs from the spec-modelled per-library reset: the
library's leading line `hello` is dropped by the code although a fragment
starting in NORMAL state would emit it. -/
theorem C5_counterexample :
    processFileE [chars ("#include L\n"), chars ("#IF __DNI_PREFIX__ == \"CCH\"\n")]
        [(chars ("L"), [chars ("hello\n"), chars ("#ENDIF\n"), chars ("world\n")])]
        kCOCOHUE true =
      .ok (marker (chars ("L")) ++ chars ("world\n")) ∧
    processFileSpecReset [chars ("#include L\n"), chars ("#IF __DNI_PREFIX__ == \"CCH\"\n")]
        [(chars ("L"), [chars ("hello\n"), chars ("#ENDIF\n"), chars ("world\n")])]
        kCOCOHUE true =
      .ok (marker (chars ("L")) ++ chars ("hello\nworld\n")) ∧
    (marker (chars ("L")) ++ chars ("world\n") : Str) ≠
      marker (chars ("L")) ++ chars ("hello\nworld\n") :=
  ⟨rfl, rfl, by decide⟩

/-- C5 amended: a library fragment does NOT begin in state NORMAL; the
expansion of a (single) recorded library starts the fragment scan from
exactly the conditional state the source file's scan ended in. -/
theorem C5_state_carried_into_library :
    ∀ (src : List Str) (libs : List (Str × List Str)) (t : Str) (st1 : PState)
      (n : Str) (c : List Str),
      phase1 src t = .ok st1 → st1.libNames = [n] → alookup libs n = some c →
      processFileE src libs t true =
        match efold (stepLibLine t) { st1 with out := st1.out ++ marker n } c with
        | .error e => .error e
        | .ok st2 => .ok st2.out := by
  intro src libs t st1 n c h1 hn hc
  simp only [processFileE, h1, hn, efold, appendLib, hc, if_true]
  cases hres : efold (stepLibLine t) { st1 with libNames := [n], out := st1.out ++ marker n } c with
  | error e => simp [hres]
  | ok st2 => simp [hres]

/-- Closed witness for the amended C5 at the counterexample's input. -/
theorem C5_state_carried_into_library_witness :
    processFileE [chars ("#include L\n"), chars ("#IF __DNI_PREFIX__ == \"CCH\"\n")]
        [(chars ("L"), [chars ("hello\n"), chars ("#ENDIF\n"), chars ("world\n")])]
        kCOCOHUE true =
      match efold (stepLibLine kCOCOHUE)
          { inIf := true, skip := true, libNames := [chars ("L")],
            out := [] ++ marker (chars ("L")) }
          [chars ("hello\n"), chars ("#ENDIF\n"), chars ("world\n")] with
      | .error e => .error e
      | .ok st2 => .ok st2.out :=
  C5_state_carried_into_library [chars ("#include L\n"), chars ("#IF __DNI_PREFIX__ == \"CCH\"\n")]
    [(chars ("L"), [chars ("hello\n"), chars ("#ENDIF\n"), chars ("world\n")])] kCOCOHUE
    { inIf := true, skip := true, libNames := [chars ("L")], out := [] }
    (chars ("L")) [chars ("hello\n"), chars ("#ENDIF\n"), chars ("world\n")] rfl rfl rfl

/-! ## C8: end-of-file inside an open conditional block -/

/-- Counterexample to C8: with an unterminated `#IF`, processing does
complete normally, but emission of the subsequent (library) content does
NOT resume as if the block had been closed: the appended library's line
`alpha` is dropped, while explicitly closing the block keeps it. -/
theorem C8_counterexample :
    processFileE [chars ("#include L\n"), chars ("#IF __DNI_PREFIX__ == \"CCH\"\n")]
        [(chars ("L"), [chars ("alpha\n")])] kCOCOHUE true = .ok (marker (chars ("L"))) ∧
    processFileE ([chars ("#include L\n"), chars ("#IF __DNI_PREFIX__ == \"CCH\"\n")] ++
          [chars ("#ENDIF\n")])
        [(chars ("L"), [chars ("alpha\n")])] kCOCOHUE true =
      .ok (marker (chars ("L")) ++ chars ("alpha\n")) ∧
    (marker (chars ("L")) : Str) ≠ marker (chars ("L")) ++ chars ("alpha\n") :=
  ⟨rfl, rfl, by decide⟩

/-- C8 amended: reaching end-of-file inside an open conditional block is
not an error — the run completes normally — and for a file that recorded
no `#include` directives the output is exactly the output of the same
file with the block explicitly closed by a final `#ENDIF`.  (With
recorded includes the open block's skip state persists into the appended
library content, as the counterexample shows.) -/
theorem C8_unterminated_if_not_error :
    ∀ (src : List Str) (libs : List (Str × List Str)) (t : Str) (st1 : PState),
      phase1 src t = .ok st1 → st1.libNames = [] →
      processFileE src libs t true = .ok st1.out ∧
      processFileE (src ++ [sENDIF]) libs t true = .ok st1.out := by
  intro src libs t st1 h1 hn
  have h1' : efold (stepSrcLine t) initState src = .ok st1 := h1
  have hstep : stepSrcLine t st1 sENDIF = .ok { st1 with inIf := false, skip := false } := rfl
  constructor
  · simp only [processFileE, h1, hn, efold]
  · simp only [processFileE, phase1, efold_append, h1', efold, hstep, hn]

/-- Closed witness for the amended C8: a concrete file ending inside an
open `#IF` block, with no includes, completes normally and matches the
explicitly closed variant. -/
theorem C8_unterminated_if_not_error_witness :
    processFileE [chars ("a\n"), chars ("#IF __DNI_PREFIX__ == \"CCH\"\n")] [] kCOCOHUE true =
        .ok (chars ("a\n")) ∧
      processFileE ([chars ("a\n"), chars ("#IF __DNI_PREFIX__ == \"CCH\"\n")] ++ [sENDIF]) []
          kCOCOHUE true =
        .ok (chars ("a\n")) :=
  C8_unterminated_if_not_error [chars ("a\n"), chars ("#IF __DNI_PREFIX__ == \"CCH\"\n")] []
    kCOCOHUE { inIf := true, skip := true, libNames := [], out := chars ("a\n") } rfl rfl

/-! ## C4: two-phase emission of includes -/

/-- Function `stepLibLine` written as its branch structure, for `split`-based
case analysis. -/
theorem stepLib_char (t : Str) (st : PState) (l : Str) :
    stepLibLine t st l =
      if pfxB sIF (pyStrip l) = true then
        (checkConditionFromLine l t).map (fun b => { st with inIf := true, skip := !b })
      else if pfxB sENDIF (pyStrip l) = true then
        .ok { st with inIf := false, skip := false }
      else if (!(st.inIf && st.skip)) = true then
        (processConstants l t).map (fun nl => { st with out := st.out ++ nl })
      else .ok st := rfl

/-- Function `stepLibLine` never touches the recorded include list. -/
theorem stepLib_names (t : Str) (st : PState) (l : Str) (st2 : PState)
    (h : stepLibLine t st l = .ok st2) : st2.libNames = st.libNames := by
  rw [stepLib_char] at h
  split at h
  · cases hc : checkConditionFromLine l t with
    | error e => rw [hc] at h; simp [Except.map] at h
    | ok b =>
      rw [hc] at h
      simp only [Except.map, Except.ok.injEq] at h
      subst h; rfl
  · split at h
    · cases h; rfl
    · split at h
      · cases hp : processConstants l t with
        | error e => rw [hp] at h; simp [Except.map] at h
        | ok nl =>
          rw [hp] at h
          simp only [Except.map, Except.ok.injEq] at h
          subst h; rfl
      · cases h; rfl

/-- Function `stepLibLine` is local in the output and include list: starting from
any replaced include list and any prefixed output it performs the same
transition, appending the same text. -/
theorem stepLib_shift (t : Str) (st : PState) (l : Str) (st2 : PState) (L0 : List Str) (O0 : Str)
    (h : stepLibLine t st l = .ok st2) :
    stepLibLine t { st with libNames := L0, out := O0 ++ st.out } l =
      .ok { st2 with libNames := L0, out := O0 ++ st2.out } := by
  rw [stepLib_char] at h
  rw [stepLib_char]
  dsimp only
  split at h <;> rename_i hc1
  · rw [if_pos hc1]
    cases hc : checkConditionFromLine l t with
    | error e => rw [hc] at h; simp [Except.map] at h
    | ok b =>
      rw [hc] at h
      simp only [Except.map, Except.ok.injEq] at h
      subst h
      simp [hc, Except.map]
  · rw [if_neg hc1]
    split at h <;> rename_i hc2
    · rw [if_pos hc2]
      cases h; rfl
    · rw [if_neg hc2]
      split at h <;> rename_i hc3
      · rw [if_pos hc3]
        cases hp : processConstants l t with
        | error e => rw [hp] at h; simp [Except.map] at h
        | ok nl =>
          rw [hp] at h
          simp only [Except.map, Except.ok.injEq] at h
          subst h
          simp [hp, Except.map, List.append_assoc]
      · rw [if_neg hc3]
        cases h; rfl

/-- The include list is preserved across a whole library fragment. -/
theorem efold_lib_names (t : Str) :
    ∀ (content : List Str) (st st2 : PState),
      efold (stepLibLine t) st content = .ok st2 → st2.libNames = st.libNames := by
  intro content
  induction content with
  | nil => intro st st2 h; cases h; rfl
  | cons l ls ih =>
    intro st st2 h
    simp only [efold] at h
    cases hstep : stepLibLine t st l with
    | error e => rw [hstep] at h; cases h
    | ok stm =>
      rw [hstep] at h
      rw [ih stm st2 h, stepLib_names t st l stm hstep]

/-- Output locality across a whole library fragment. -/
theorem efold_lib_shift (t : Str) :
    ∀ (content : List Str) (st st2 : PState) (L0 : List Str) (O0 : Str),
      efold (stepLibLine t) st content = .ok st2 →
      efold (stepLibLine t) { st with libNames := L0, out := O0 ++ st.out } content =
        .ok { st2 with libNames := L0, out := O0 ++ st2.out } := by
  intro content
  induction content with
  | nil =>
    intro st st2 L0 O0 h
    cases h; rfl
  | cons l ls ih =>
    intro st st2 L0 O0 h
    simp only [efold] at h ⊢
    cases hstep : stepLibLine t st l with
    | error e => rw [hstep] at h; cases h
    | ok stm =>
      rw [hstep] at h
      rw [stepLib_shift t st l stm L0 O0 hstep]
      exact ih stm st2 L0 O0 h

/-- Phase two with every referenced library resolving cleanly (ending in
NORMAL state): the appended text is, in order, each recorded name's
marker followed by that library's freshly processed output — with
duplicates appended once per occurrence. -/
theorem efold_appendLib_fresh (libs : List (Str × List Str)) (t : Str) :
    ∀ (names : List Str) (st : PState), st.inIf = false → st.skip = false →
      (∀ n ∈ names, ∃ stn, libResolveFresh libs t n = .ok stn ∧
        stn.inIf = false ∧ stn.skip = false) →
      efold (appendLib libs t true) st names =
        .ok { st with out := st.out ++ (names.map (fun n => marker n ++ libOut libs t n)).flatten } := by
  intro names
  induction names with
  | nil =>
    intro st hinif hskip hres
    simp [efold]
  | cons n ns ih =>
    intro st hinif hskip hres
    obtain ⟨stn, hfresh, hnin, hnsk⟩ := hres n (by simp)
    have hfresh' := hfresh
    simp only [libResolveFresh] at hfresh'
    cases halk : alookup libs n with
    | none => rw [halk] at hfresh'; cases hfresh'
    | some content =>
      rw [halk] at hfresh'
      obtain ⟨i0, s0, L0v, O0v⟩ := st
      simp only at hinif hskip
      subst hinif; subst hskip
      have hnames : stn.libNames = [] := by
        simpa using efold_lib_names t content initState stn hfresh'
      have hshift := efold_lib_shift t content initState stn L0v (O0v ++ marker n) hfresh'
      simp only [initState, List.append_nil] at hshift
      simp only [efold, appendLib, halk, if_true]
      rw [hshift]
      have hstep := ih
        { inIf := stn.inIf, skip := stn.skip, libNames := L0v,
          out := O0v ++ marker n ++ stn.out }
        (by simpa using hnin) (by simpa using hnsk)
        (fun m hm => hres m (by simp [hm]))
      dsimp only at hstep ⊢
      rw [hstep]
      have hlib : libOut libs t n = stn.out := by
        simp [libOut, hfresh]
      simp [hlib, hnin, hnsk, List.append_assoc]

/-- C4: `#include` lines are consumed, never written (their scan leaves
the output untouched in every reachable state); and, when phase one
succeeds ending in NORMAL state and every recorded library resolves
cleanly, the destination content is the source file's own emitted lines
followed by, in the order the `#include` directives appeared (duplicates
repeated), each library's marker comment and resolved content. -/
theorem C4_include_two_phase :
    (∀ (t2 : Str) (st2 : PState) (line : Str),
      pfxB sInclude (pyStrip line) = true → (st2.skip = true → st2.inIf = true) →
      ∃ st3, stepSrcLine t2 st2 line = .ok st3 ∧ st3.out = st2.out) ∧
    (∀ (src : List Str) (libs : List (Str × List Str)) (t : Str) (st1 : PState),
      phase1 src t = .ok st1 → st1.inIf = false → st1.skip = false →
      (∀ n ∈ st1.libNames, ∃ stn, libResolveFresh libs t n = .ok stn ∧
        stn.inIf = false ∧ stn.skip = false) →
      processFileE src libs t true =
        .ok (st1.out ++ (st1.libNames.map (fun n => marker n ++ libOut libs t n)).flatten)) := by
  constructor
  · intro t2 st2 line h hinv
    cases hskip : st2.skip with
    | true =>
      exact ⟨st2, (stepSrc_include t2 st2 line h).1 hskip (hinv hskip), rfl⟩
    | false =>
      exact ⟨_, (stepSrc_include t2 st2 line h).2 hskip, rfl⟩
  · intro src libs t st1 h1 hinif hskip hres
    simp only [processFileE, h1]
    rw [efold_appendLib_fresh libs t st1.libNames st1 hinif hskip hres]

/-- Closed witness for C4: a file including the same library twice gets
that library's content appended twice, after all of the file's own
lines. -/
theorem C4_include_two_phase_witness :
    processFileE [chars ("x\n"), chars ("#include L\n"), chars ("y\n"), chars ("#include L\n")]
        [(chars ("L"), [chars ("z\n")])] kCOCOHUE true =
      .ok (chars ("x\ny\n") ++
        ([chars ("L"), chars ("L")].map (fun n =>
          marker n ++ libOut [(chars ("L"), [chars ("z\n")])] kCOCOHUE n)).flatten) :=
  C4_include_two_phase.2
    [chars ("x\n"), chars ("#include L\n"), chars ("y\n"), chars ("#include L\n")]
    [(chars ("L"), [chars ("z\n")])] kCOCOHUE
    { inIf := false, skip := false, libNames := [chars ("L"), chars ("L")],
      out := chars ("x\ny\n") } rfl rfl rfl
    (by
      intro n hn
      simp only [List.mem_cons, List.not_mem_nil, or_false] at hn
      rcases hn with rfl | rfl <;>
        exact ⟨{ inIf := false, skip := false, libNames := [], out := chars ("z\n") },
          rfl, rfl, rfl⟩)

/-! ## C7: lookup failures are fatal, and are the only aborts -/

/-- Function `stepSrcLine` written as its branch structure. -/
theorem stepSrc_char (t : Str) (st : PState) (line : Str) :
    stepSrcLine t st line =
      if (pfxB sInclude (pyStrip line) && !st.skip) = true then
        .ok { st with libNames := st.libNames ++ [includeName line] }
      else if pfxB sIF (pyStrip line) = true then
        (checkConditionFromLine line t).map (fun b => { st with inIf := true, skip := !b })
      else if pfxB sENDIF (pyStrip line) = true then
        .ok { st with inIf := false, skip := false }
      else if (!(st.inIf && st.skip)) = true then
        (processConstants line t).map (fun nl => { st with out := st.out ++ nl })
      else .ok st := rfl

theorem alookup_mem {α : Type} :
    ∀ (m : List (Str × α)) (k : Str) (v : α), alookup m k = some v → (k, v) ∈ m := by
  intro m
  induction m with
  | nil => intro k v h; cases h
  | cons p r ih =>
    intro k v h
    obtain ⟨a, b⟩ := p
    simp only [alookup] at h
    split at h
    · rename_i hak
      cases h
      subst hak
      exact List.mem_cons_self _ _
    · exact List.mem_cons_of_mem _ (ih k v h)

theorem constLookup_err (c t : Str) (e : PErr) (h : constLookup c t = .error e) :
    isLookupErr e = true := by
  simp only [constLookup] at h
  split at h
  · cases h; rfl
  · split at h
    · cases h; rfl
    · cases h

theorem cfold_err (t : Str) :
    ∀ (ks : List Str) (s : Str) (e : PErr), cfold t s ks = .error e → isLookupErr e = true := by
  intro ks
  induction ks with
  | nil => intro s e h; cases h
  | cons c cs ih =>
    intro s e h
    simp only [cfold] at h
    cases hc : constLookup c t with
    | error e2 =>
      rw [hc] at h
      cases h
      exact constLookup_err c t _ hc
    | ok v =>
      rw [hc] at h
      exact ih _ _ h

theorem processConstants_err (l t : Str) (e : PErr) (h : processConstants l t = .error e) :
    isLookupErr e = true := by
  simp only [processConstants] at h
  split at h
  · exact cfold_err t _ _ _ h
  · cases h

theorem checkCond_err (line t : Str) (e : PErr)
    (hwf : (pySplit sEqEq (pyStrip (replaceAll sIF [] line))).length = 2)
    (h : checkConditionFromLine line t = .error e) : isLookupErr e = true := by
  simp only [checkConditionFromLine] at h
  split at h
  · rename_i lhs rhs heq
    cases hc : constLookup (pyStrip lhs) t with
    | error e2 =>
      rw [hc] at h
      simp only [Except.map] at h
      cases h
      exact constLookup_err _ t _ hc
    | ok v =>
      rw [hc] at h
      simp [Except.map] at h
  · rename_i hcon
    exfalso
    rcases hxs : pySplit sEqEq (pyStrip (replaceAll sIF [] line)) with _ | ⟨a, _ | ⟨b, _ | ⟨c, r⟩⟩⟩ <;>
      rw [hxs] at hwf <;> simp at hwf
    exact hcon a b hxs

theorem stepSrc_err (t : Str) (st : PState) (l : Str) (e : PErr) (hwf : wfIfLine l = true)
    (h : stepSrcLine t st l = .error e) : isLookupErr e = true := by
  rw [stepSrc_char] at h
  split at h
  · cases h
  · split at h
    · rename_i hif
      have hlen : (pySplit sEqEq (pyStrip (replaceAll sIF [] l))).length = 2 := by
        simp only [wfIfLine, hif, Bool.not_true, Bool.false_or, beq_iff_eq] at hwf
        exact hwf
      cases hc : checkConditionFromLine l t with
      | error e2 =>
        rw [hc] at h
        simp only [Except.map] at h
        cases h
        exact checkCond_err l t _ hlen hc
      | ok b =>
        rw [hc] at h
        simp [Except.map] at h
    · split at h
      · cases h
      · split at h
        · cases hp : processConstants l t with
          | error e2 =>
            rw [hp] at h
            simp only [Except.map] at h
            cases h
            exact processConstants_err l t _ hp
          | ok nl =>
            rw [hp] at h
            simp [Except.map] at h
        · cases h

theorem stepLib_err (t : Str) (st : PState) (l : Str) (e : PErr) (hwf : wfIfLine l = true)
    (h : stepLibLine t st l = .error e) : isLookupErr e = true := by
  rw [stepLib_char] at h
  split at h
  · rename_i hif
    have hlen : (pySplit sEqEq (pyStrip (replaceAll sIF [] l))).length = 2 := by
      simp only [wfIfLine, hif, Bool.not_true, Bool.false_or, beq_iff_eq] at hwf
      exact hwf
    cases hc : checkConditionFromLine l t with
    | error e2 =>
      rw [hc] at h
      simp only [Except.map] at h
      cases h
      exact checkCond_err l t _ hlen hc
    | ok b =>
      rw [hc] at h
      simp [Except.map] at h
  · split at h
    · cases h
    · split at h
      · cases hp : processConstants l t with
        | error e2 =>
          rw [hp] at h
          simp only [Except.map] at h
          cases h
          exact processConstants_err l t _ hp
        | ok nl =>
          rw [hp] at h
          simp [Except.map] at h
      · cases h

theorem efold_err {α : Type} (f : PState → α → Except PErr PState) :
    ∀ (xs : List α) (st : PState) (e : PErr), efold f st xs = .error e →
      ∃ x ∈ xs, ∃ st2, f st2 x = .error e := by
  intro xs
  induction xs with
  | nil => intro st e h; cases h
  | cons x xs ih =>
    intro st e h
    simp only [efold] at h
    cases hx : f st x with
    | error e2 =>
      rw [hx] at h
      cases h
      exact ⟨x, by simp, st, hx⟩
    | ok st2 =>
      rw [hx] at h
      obtain ⟨y, hy, st3, hy2⟩ := ih st2 e h
      exact ⟨y, by simp [hy], st3, hy2⟩

theorem appendLib_err (libs : List (Str × List Str)) (t : Str) (st : PState) (n : Str) (e : PErr)
    (hwl : wfLibs libs = true) (h : appendLib libs t true st n = .error e) :
    isLookupErr e = true := by
  simp only [appendLib, if_true] at h
  split at h
  · cases h; rfl
  · rename_i content halk
    obtain ⟨l, hl, st2, hstep⟩ := efold_err (stepLibLine t) content _ e h
    have hmem := alookup_mem libs n content halk
    have hwfl : wfLines content = true := by
      have := List.all_eq_true.mp hwl (n, content) hmem
      simpa using this
    exact stepLib_err t st2 l e (List.all_eq_true.mp hwfl l hl) hstep

/-- A fully well-formed `#IF` line is in particular split-well-formed. -/
theorem wfIfLine_of_lit (l : Str) (h : wfIfLineLit l = true) : wfIfLine l = true := by
  simp only [wfIfLineLit] at h
  simp only [wfIfLine]
  cases hp : pfxB sIF (pyStrip l) with
  | false => simp
  | true =>
    rw [hp] at h
    simp only [Bool.not_true, Bool.false_or] at h ⊢
    rcases hxs : pySplit sEqEq (pyStrip (replaceAll sIF [] l)) with _ | ⟨a, _ | ⟨b, _ | ⟨c, r⟩⟩⟩ <;>
      rw [hxs] at h
    · cases h
    · cases h
    · simp
    · cases h

theorem wfLines_of_lit (ls : List Str) (h : wfLinesLit ls = true) : wfLines ls = true := by
  simp only [wfLinesLit, List.all_eq_true] at h
  simp only [wfLines, List.all_eq_true]
  exact fun l hl => wfIfLine_of_lit l (h l hl)

theorem wfLibs_of_lit (libs : List (Str × List Str)) (h : wfLibsLit libs = true) :
    wfLibs libs = true := by
  simp only [wfLibsLit, List.all_eq_true] at h
  simp only [wfLibs, List.all_eq_true]
  exact fun nc hnc => wfLines_of_lit nc.2 (h nc hnc)

/-- C7: with every `#IF` line fully well formed — its condition splits on
`==` into exactly two parts, so Python's tuple unpacking cannot raise a
`ValueError`, and its right-hand side is a string or integer literal of
the `pyLitB` fragment, so `ast.parse` cannot raise a `SyntaxError` —
every abort of `processFile` is a lookup failure: an unknown `#IF`
constant, a constant with no value for the active target, or an
unregistered `#include` library; and each of the three conditions does
abort the run, shown at concrete inputs. -/
theorem C7_lookup_failures_fatal :
    (∀ (src : List Str) (libs : List (Str × List Str)) (t : Str) (e : PErr),
      wfLinesLit src = true → wfLibsLit libs = true →
      processFileE src libs t true = .error e → isLookupErr e = true) ∧
    processFileE [chars ("#IF __NOPE__ == 1\n")] [] kCOCOHUE true =
      .error (.unknownConstant (chars ("__NOPE__"))) ∧
    processFileE [chars ("__APP_NAME__\n")] [] (chars ("OTHER")) true =
      .error (.missingTarget (chars ("__APP_NAME__")) (chars ("OTHER"))) ∧
    processFileE [chars ("#include RMoRobert.Missing_Lib\n")] [] kCOCOHUE true =
      .error (.unknownLibrary (chars ("RMoRobert.Missing_Lib"))) := by
  refine ⟨?_, rfl, rfl, rfl⟩
  intro src libs t e hwfl hwll h
  have hwf := wfLines_of_lit src hwfl
  have hwl := wfLibs_of_lit libs hwll
  simp only [processFileE] at h
  cases h1 : phase1 src t with
  | error e1 =>
    rw [h1] at h
    dsimp only at h
    cases h
    obtain ⟨l, hl, st2, hstep⟩ := efold_err (stepSrcLine t) src initState e h1
    exact stepSrc_err t st2 l e (List.all_eq_true.mp hwf l hl) hstep
  | ok st1 =>
    rw [h1] at h
    dsimp only at h
    cases h2 : efold (appendLib libs t true) st1 st1.libNames with
    | error e2 =>
      rw [h2] at h
      dsimp only at h
      cases h
      obtain ⟨n, hn, st2, happ⟩ := efold_err (appendLib libs t true) st1.libNames st1 e h2
      exact appendLib_err libs t st2 n e hwl happ
    | ok st2 =>
      rw [h2] at h
      dsimp only at h
      cases h

/-- Closed witness for C7: the forward direction applied at a concrete
aborting input with well-formed `#IF` lines. -/
theorem C7_lookup_failures_fatal_witness :
    isLookupErr (.unknownConstant (chars ("__NOPE__"))) = true :=
  C7_lookup_failures_fatal.1 [chars ("#IF __NOPE__ == 1\n")] [] kCOCOHUE
    (.unknownConstant (chars ("__NOPE__"))) (by decide) rfl rfl

/-! ## C3: constant substitution, via exact-matching lemmas for `replaceAll` -/

theorem pfxB_append_self : ∀ (p b : Str), pfxB p (p ++ b) = true := by
  intro p
  induction p with
  | nil => intro b; rfl
  | cons a q ih => intro b; simp [pfxB, ih]

theorem occursB_of_pfxB (p s : Str) (h : pfxB p s = true) : occursB p s = true := by
  cases s with
  | nil => exact h
  | cons c t => simp [occursB, h]

theorem occursB_cons_false (p : Str) (c : Char) (t : Str) (h : occursB p (c :: t) = false) :
    pfxB p (c :: t) = false ∧ occursB p t = false := by
  simpa [occursB] using h

theorem pfxB_iff_take : ∀ (p s : Str), pfxB p s = true ↔ s.take p.length = p := by
  intro p
  induction p with
  | nil => intro s; simp [pfxB]
  | cons a q ih =>
    intro s
    cases s with
    | nil => simp [pfxB]
    | cons b t =>
      simp only [pfxB, List.length_cons, List.take_succ_cons, List.cons.injEq,
        Bool.and_eq_true, beq_iff_eq, ih]
      constructor
      · rintro ⟨h1, h2⟩; exact ⟨h1.symm, h2⟩
      · rintro ⟨h1, h2⟩; exact ⟨h1.symm, h2⟩

theorem pfxB_append_take (p x y : Str) (hx : x ≠ []) (h : pfxB p (x ++ y) = true) :
    pfxB p (x ++ y.take (p.length - 1)) = true := by
  rw [pfxB_iff_take] at h ⊢
  rw [List.take_append_eq_append_take] at h ⊢
  rw [List.take_take]
  have hxl : 1 ≤ x.length := by
    cases x with
    | nil => exact absurd rfl hx
    | cons c t => simp
  have : min (p.length - x.length) (p.length - 1) = p.length - x.length := by omega
  rw [this]
  exact h

theorem raux_skip (p r : Str) : ∀ (s : Str) (k : Nat), raux p r k s = raux p r 0 (s.drop k) := by
  intro s
  induction s with
  | nil => intro k; cases k <;> rfl
  | cons c t ih =>
    intro k
    cases k with
    | zero => rfl
    | succ j => simpa [raux] using ih j

theorem replaceAll_nil (a : Char) (q r : Str) : replaceAll (a :: q) r [] = [] := rfl

theorem replaceAll_cons_neg (a : Char) (q r : Str) (c : Char) (t : Str)
    (hpf : pfxB (a :: q) (c :: t) = false) :
    replaceAll (a :: q) r (c :: t) = c :: replaceAll (a :: q) r t := by
  simp [replaceAll, raux, hpf]

theorem replaceAll_cons_pos (a : Char) (q r : Str) (s : Str)
    (hpf : pfxB (a :: q) s = true) :
    replaceAll (a :: q) r s = r ++ replaceAll (a :: q) r (s.drop (a :: q).length) := by
  cases s with
  | nil => cases hpf
  | cons c t =>
    simp only [replaceAll, raux, hpf, if_true, List.length_cons, Nat.add_sub_cancel,
      List.drop_succ_cons]
    rw [raux_skip]

theorem replaceAll_no_occ (p r : Str) : ∀ (s : Str), occursB p s = false → replaceAll p r s = s := by
  cases p with
  | nil => intro s h; rfl
  | cons a q =>
    intro s
    induction s with
    | nil => intro h; rfl
    | cons c t ih =>
      intro h
      obtain ⟨h1, h2⟩ := occursB_cons_false _ c t h
      rw [replaceAll_cons_neg a q r c t h1, ih h2]

theorem replaceAll_append (p r : Str) (hp : p ≠ []) :
    ∀ (x R : Str), occursB p (x ++ R.take (p.length - 1)) = false →
      replaceAll p r (x ++ R) = x ++ replaceAll p r R := by
  obtain ⟨a, q, rfl⟩ : ∃ a q, p = a :: q := by
    cases p with
    | nil => exact absurd rfl hp
    | cons a q => exact ⟨a, q, rfl⟩
  intro x
  induction x with
  | nil => intro R h; rfl
  | cons c s ih =>
    intro R h
    rw [List.cons_append] at h ⊢
    obtain ⟨h1, h2⟩ := occursB_cons_false _ c _ h
    have hpf : pfxB (a :: q) (c :: (s ++ R)) = false := by
      cases hpf : pfxB (a :: q) (c :: (s ++ R)) with
      | false => rfl
      | true =>
        have h3 := pfxB_append_take (a :: q) (c :: s) R (by simp) (by simpa using hpf)
        rw [List.cons_append] at h3
        rw [h3] at h1
        cases h1
    rw [replaceAll_cons_neg a q r c _ hpf, ih R h2]
    simp

theorem replaceAll_glue (p r : Str) (hp : p ≠ []) :
    ∀ (x b : Str), occursB p (x ++ (p ++ b).take (p.length - 1)) = false →
      replaceAll p r (x ++ (p ++ b)) = x ++ (r ++ replaceAll p r b) := by
  obtain ⟨a, q, rfl⟩ : ∃ a q, p = a :: q := by
    cases p with
    | nil => exact absurd rfl hp
    | cons a q => exact ⟨a, q, rfl⟩
  intro x
  induction x with
  | nil =>
    intro b h
    rw [List.nil_append, List.nil_append,
      replaceAll_cons_pos a q r _ (pfxB_append_self (a :: q) b), List.drop_left]
  | cons c s ih =>
    intro b h
    rw [List.cons_append] at h ⊢
    obtain ⟨h1, h2⟩ := occursB_cons_false _ c _ h
    have hpf : pfxB (a :: q) (c :: (s ++ (a :: q ++ b))) = false := by
      cases hpf : pfxB (a :: q) (c :: (s ++ (a :: q ++ b))) with
      | false => rfl
      | true =>
        have h3 := pfxB_append_take (a :: q) (c :: s) (a :: q ++ b) (by simp) (by simpa using hpf)
        rw [List.cons_append] at h3
        rw [h3] at h1
        cases h1
    rw [replaceAll_cons_neg a q r c _ hpf, ih b h2]
    simp

theorem stage_step (j : Nat) (hk : keyAt j ≠ []) :
    ∀ (ps : List Piece), stepOKb (keyAt j) j ps = true →
      replaceAll (keyAt j) (valAt j) (renderAt j ps) = renderAt (j + 1) ps := by
  obtain ⟨a, q, haq⟩ : ∃ a q, keyAt j = a :: q := by
    cases hkey : keyAt j with
    | nil => exact absurd hkey hk
    | cons a q => exact ⟨a, q, rfl⟩
  intro ps
  induction ps with
  | nil =>
    intro h
    rw [haq]
    rfl
  | cons piece rest ih =>
    intro h
    cases piece with
    | raw s =>
      simp only [stepOKb, Bool.and_eq_true, Bool.not_eq_true'] at h
      simp only [renderAt, pieceR]
      rw [replaceAll_append _ _ hk s (renderAt j rest) h.1, ih h.2]
    | tok i =>
      by_cases hij : i = j
      · subst hij
        simp only [stepOKb, if_pos rfl, Bool.true_and] at h
        simp only [renderAt, pieceR, Nat.lt_irrefl, if_false, Nat.lt_succ_self, if_true]
        rw [haq, replaceAll_cons_pos a q (valAt i) _ (pfxB_append_self (a :: q) _),
          List.drop_left, ← haq, ih h]
      · simp only [stepOKb, if_neg hij, Bool.and_eq_true, Bool.not_eq_true'] at h
        simp only [renderAt]
        rw [replaceAll_append _ _ hk _ _ h.1, ih h.2]
        congr 1
        simp only [pieceR]
        by_cases hlt : i < j
        · rw [if_pos hlt, if_pos (by omega)]
        · rw [if_neg hlt, if_neg (by omega)]

theorem renderAt_ge : ∀ (ps : List Piece), psBound ps = true →
    ∀ (j : Nat), pairsList.length ≤ j → renderAt j ps = renderAt pairsList.length ps := by
  intro ps
  induction ps with
  | nil => intro _hb j hj; rfl
  | cons piece rest ih =>
    intro hb j hj
    simp only [psBound, List.all_cons, Bool.and_eq_true] at hb
    simp only [renderAt]
    rw [ih hb.2 j hj]
    congr 1
    cases piece with
    | raw s => rfl
    | tok i =>
      have hi : i < pairsList.length := by
        have := hb.1
        simpa using this
      simp only [pieceR]
      rw [if_pos (by omega), if_pos hi]

theorem drop_eq_cons {α : Type} (d : α) :
    ∀ (l : List α) (j : Nat), j < l.length → l.drop j = l.getD j d :: l.drop (j + 1) := by
  intro l
  induction l with
  | nil => intro j h; simp at h
  | cons x xs ih =>
    intro j h
    cases j with
    | zero => simp
    | succ j2 =>
      simp only [List.drop_succ_cons, List.getD_cons_succ]
      exact ih j2 (by simpa using h)

theorem keyAt_ne_nil : ∀ (j : Nat), j < pairsList.length → keyAt j ≠ [] := by decide

theorem stage_fold (ps : List Piece) (_hb : psBound ps = true)
    (hOK : ∀ j, j < pairsList.length → stepOKb (keyAt j) j ps = true) :
    ∀ (m j : Nat), j + m = pairsList.length →
      pureSubst (pairsList.drop j) (renderAt j ps) = renderAt pairsList.length ps := by
  intro m
  induction m with
  | zero =>
    intro j hj
    have hj2 : j = pairsList.length := by omega
    subst hj2
    rw [List.drop_length]
    rfl
  | succ m ih =>
    intro j hj
    have hjlt : j < pairsList.length := by omega
    rw [drop_eq_cons ([], []) pairsList j hjlt]
    have hcons : pureSubst (pairsList.getD j ([], []) :: pairsList.drop (j + 1)) (renderAt j ps) =
        pureSubst (pairsList.drop (j + 1)) (replaceAll (keyAt j) (valAt j) (renderAt j ps)) := rfl
    rw [hcons, stage_step j (keyAt_ne_nil j hjlt) ps (hOK j hjlt)]
    exact ih (j + 1) (by omega)

theorem constLookup_pairs : ∀ kv ∈ pairsList, constLookup kv.1 kCOCOHUE = .ok kv.2 := by decide

theorem keys_eq_pairs_fst : CONSTANT_KEYS = pairsList.map (fun kv => kv.1) := by decide

theorem cfold_pairs : ∀ (ks : List (Str × Str)) (s : Str),
    (∀ kv ∈ ks, constLookup kv.1 kCOCOHUE = .ok kv.2) →
    cfold kCOCOHUE s (ks.map (fun kv => kv.1)) = .ok (pureSubst ks s) := by
  intro ks
  induction ks with
  | nil => intro s h; rfl
  | cons kv rest ih =>
    intro s h
    have h1 := h kv (by simp)
    simp only [List.map_cons, cfold, h1]
    exact ih _ (fun x hx => h x (by simp [hx]))

theorem cfold_cocohue : ∀ (s : Str), cfold kCOCOHUE s CONSTANT_KEYS = .ok (pureSubst pairsList s) := by
  intro s
  rw [keys_eq_pairs_fst]
  exact cfold_pairs pairsList s constLookup_pairs

theorem pureSubst_no_occ : ∀ (pairs : List (Str × Str)) (s : Str),
    (∀ kv ∈ pairs, occursB kv.1 s = false) → pureSubst pairs s = s := by
  intro pairs
  induction pairs with
  | nil => intro s h; rfl
  | cons kv rest ih =>
    intro s h
    have h1 := h kv (by simp)
    show pureSubst rest (replaceAll kv.1 kv.2 s) = s
    rw [replaceAll_no_occ kv.1 kv.2 s h1]
    exact ih s (fun x hx => h x (by simp [hx]))

theorem pairsList_fst (kv : Str × Str) (h : kv ∈ pairsList) : kv.1 ∈ CONSTANT_KEYS := by
  simp only [pairsList, List.mem_map] at h
  obtain ⟨x, hx, rfl⟩ := h
  simp only [CONSTANT_KEYS, List.mem_map]
  exact ⟨x, hx, rfl⟩

/-- C3 amended: a line with no placeholder token is emitted unchanged;
and for every target in the target table and every line that decomposes
into placeholder tokens and plain segments such that no stage of the
sequential replacement has a spurious occurrence of a key (`soundB`),
the emitted line is exactly the decomposition with every placeholder
token replaced by that constant's value for the target and every plain
segment byte-identical.  (The unrestricted claim is false: overlapping
placeholder occurrences break it — see the counterexample.) -/
theorem C3_constant_substitution :
    (∀ (s t : Str), CONSTANT_KEYS.any (fun c => occursB c s) = false →
      processConstants s t = .ok s) ∧
    (∀ (ps : List Piece) (t : Str), t ∈ ALL_TARGETS → soundB ps = true →
      processConstants (renderAt 0 ps) t = .ok (renderAt pairsList.length ps)) := by
  constructor
  · intro s t h
    simp [processConstants, h]
  · intro ps t ht hs
    have htc : t = kCOCOHUE := by simpa [ALL_TARGETS] using ht
    subst htc
    simp only [soundB, Bool.and_eq_true] at hs
    obtain ⟨hb, hall⟩ := hs
    have hOK : ∀ j, j < pairsList.length → stepOKb (keyAt j) j ps = true := by
      intro j hj
      exact List.all_eq_true.mp hall j (List.mem_range.mpr hj)
    have hsub := stage_fold ps hb hOK pairsList.length 0 (by omega)
    rw [List.drop_zero] at hsub
    cases hany : CONSTANT_KEYS.any (fun c => occursB c (renderAt 0 ps)) with
    | true =>
      simp only [processConstants, hany, if_true]
      rw [cfold_cocohue, hsub]
    | false =>
      simp only [processConstants, hany, Bool.false_eq_true, if_false]
      have hnone : ∀ kv ∈ pairsList, occursB kv.1 (renderAt 0 ps) = false := by
        intro kv hkv
        have hmem := pairsList_fst kv hkv
        simp only [List.any_eq_false] at hany
        simpa using hany kv.1 hmem
      have hstable : renderAt pairsList.length ps = renderAt 0 ps := by
        rw [← hsub, pureSubst_no_occ pairsList _ hnone]
      rw [hstable]

set_option maxHeartbeats 1000000 in
/-- Counterexample to C3 as stated: the line `__APP_NAME__NAMESPACE__`
contains an occurrence of the known constant `__NAMESPACE__` (overlapping
the occurrence of `__APP_NAME__`), yet the emitted output does not
contain that constant's value `RMoRobert` — the occurrence is not
replaced and the residual text `NAMESPACE__` remains. -/
theorem C3_counterexample :
    occursB (chars ("__NAMESPACE__")) (chars ("__APP_NAME__NAMESPACE__")) = true ∧
    processConstants (chars ("__APP_NAME__NAMESPACE__")) kCOCOHUE =
      .ok (chars ("CoCoHue - Hue Bridge IntegrationNAMESPACE__")) ∧
    occursB (chars ("RMoRobert")) (chars ("CoCoHue - Hue Bridge IntegrationNAMESPACE__")) =
      false :=
  ⟨by decide, by decide, by decide⟩

/-- Closed witness for the amended C3: a placeholder-free line passes
through unchanged, and the spec's concrete scenario line
`title: "__APP_NAME__ Setup"` (decomposed as raw/token/raw) substitutes
to `title: "CoCoHue - Hue Bridge Integration Setup"`. -/
theorem C3_constant_substitution_witness :
    processConstants (chars ("hello\n")) kCOCOHUE = .ok (chars ("hello\n")) ∧
    processConstants
        (renderAt 0 [Piece.raw (chars ("title: \"")), Piece.tok 0,
          Piece.raw (chars (" Setup\"\n"))]) kCOCOHUE =
      .ok (renderAt pairsList.length [Piece.raw (chars ("title: \"")), Piece.tok 0,
          Piece.raw (chars (" Setup\"\n"))]) :=
  ⟨C3_constant_substitution.1 (chars ("hello\n")) kCOCOHUE (by decide),
   C3_constant_substitution.2
     [Piece.raw (chars ("title: \"")), Piece.tok 0, Piece.raw (chars (" Setup\"\n"))]
     kCOCOHUE (by decide) (by decide)⟩

end CCH
